import Mathlib

/-!
Shallow embedding of the geocoding resolution pipeline of the
`property-monitor` repository (files `src/geocoding_service.py` and
`src/database.py`), together with proofs of the specification claims.

Modelling conventions:
* Python strings are Lean `String` / `List Char`.
* Python floats (coordinates) are modelled as `ℚ`; the bounding-box
  constants are exact decimals.
* The sqlite database is an explicit `DBState` record; SQL statements
  become pure state transformers translated row-by-row from the source.
* The external Nominatim provider is an oracle `String → Option (ℚ × ℚ)`
  mapping a query string to at most one candidate coordinate; a `none`
  covers both "no result" and a per-query provider error, which have the
  same control flow in `_geocode_basic` (both fall through to the next
  query).  The list of issued query strings is threaded through every
  function so that "number of external calls" is observable.
* Wall-clock fields (`duration_seconds`, timestamps) are not modelled.
-/

namespace PropMon

/-! ## Python string primitives -/

/-- The whitespace characters recognised by Python's `str.strip` /
regex `\s` (the ASCII ones, which are the only ones relevant here). -/
def spaceChars : List Char := [' ', '\t', '\n', '\r', '\x0b', '\x0c']

def pyIsSpace (c : Char) : Bool := decide (c ∈ spaceChars)

def lcList : List Char := "abcdefghijklmnopqrstuvwxyz".toList

def ucList : List Char := "ABCDEFGHIJKLMNOPQRSTUVWXYZ".toList

def digitList : List Char := "0123456789".toList

/-- Case mapping used by `str.lower` restricted to the alphabet this
program manipulates: ASCII letters plus the Polish diacritic letters. -/
def lowerPairs : List (Char × Char) :=
  ucList.zip lcList ++
  [('Ą','ą'), ('Ć','ć'), ('Ę','ę'), ('Ł','ł'), ('Ń','ń'),
   ('Ó','ó'), ('Ś','ś'), ('Ź','ź'), ('Ż','ż')]

def toLowerPL (c : Char) : Char :=
  match lowerPairs.find? (fun kv => kv.1 = c) with
  | some kv => kv.2
  | none => c

/-- `str.strip` on a character list. -/
def pyStrip (l : List Char) : List Char :=
  ((l.dropWhile pyIsSpace).reverse.dropWhile pyIsSpace).reverse

/-- NFKD decomposition followed by ascii-ignore encoding
(`unicodedata.normalize('NFKD', city)` then `.encode('ascii','ignore')`),
modelled per character on the program's alphabet: ASCII characters are
kept, lowercase Polish diacritic letters decompose to their base letter,
and `ł` (which has no NFKD decomposition) as well as any other
non-ASCII character is dropped. -/
def foldPairs : List (Char × Char) :=
  [('ą','a'), ('ć','c'), ('ę','e'), ('ń','n'),
   ('ó','o'), ('ś','s'), ('ź','z'), ('ż','z')]

def asciiFoldChar (c : Char) : List Char :=
  if c.toNat < 128 then [c]
  else
    match foldPairs.find? (fun kv => kv.1 = c) with
    | some kv => [kv.2]
    | none => []

/-- Regex `\w` over the post-ascii-encode alphabet. -/
def isWordChar (c : Char) : Bool :=
  decide (c ∈ lcList ∨ c ∈ ucList ∨ c ∈ digitList ∨ c = '_')

/-- Characters kept by `re.sub(r'[^\w\s\-]', '', city)`. -/
def keepChar (c : Char) : Bool := isWordChar c || pyIsSpace c || c = '-'

/-- `re.sub(r'\s+', ' ', city)`: every maximal whitespace run becomes a
single space. -/
def collapseWS : List Char → List Char
  | [] => []
  | c :: rest =>
    if pyIsSpace c then
      match rest with
      | [] => [' ']
      | d :: _ => if pyIsSpace d then collapseWS rest else ' ' :: collapseWS rest
    else c :: collapseWS rest

def spaceToUnderscore (c : Char) : Char := if c = ' ' then '_' else c

/-! ## `DatabaseManager._normalize_city` (src/database.py lines 90-118) -/

/-- The hard-coded prefix list of `_normalize_city` (each entry includes
its trailing space, exactly as in the source). -/
def dbPfxs : List (List Char) :=
  ["gmina ", "gm. ", "miasto ", "m. ", "powiat ", "pow. "].map String.toList

/-- The prefix-removal loop of `_normalize_city`: the first matching
entry is removed (with `break`) and the remainder stripped. -/
def stripDbPfx (s : List Char) : List Char :=
  match dbPfxs.find? (fun p => p.isPrefixOf s) with
  | some p => pyStrip (s.drop p.length)
  | none => s

def normalizeL (l : List Char) : List Char :=
  (collapseWS
    (((stripDbPfx ((pyStrip l).map toLowerPL)).flatMap asciiFoldChar).filter
      keepChar)).map spaceToUnderscore

/-- `DatabaseManager._normalize_city`. -/
def normalize_city (city : String) : String :=
  if city = "" then "" else ⟨normalizeL city.toList⟩

/-! ## `GeocodingDataManager` (src/geocoding_service.py lines 79-203)

The data files are created with fixed default contents when absent; the
defaults below are those literal tables from `_create_default_files`. -/

def defaultCorrections : List (String × String) :=
  [("warszewa", "warszawa"), ("warsawa", "warszawa"), ("warshawa", "warszawa"),
   ("krakuw", "krakow"), ("krakof", "krakow"),
   ("wroclw", "wroclaw"), ("wrocalw", "wroclaw"), ("wrocaw", "wroclaw"),
   ("gdanks", "gdansk"), ("poznan", "poznan"), ("poznań", "poznan"),
   ("lodz", "lodz"), ("łódz", "lodz"),
   ("szczecin", "szczecin"), ("szczesz", "szczecin"),
   ("bydgoscz", "bydgoszcz"), ("bydgoszcz", "bydgoszcz"),
   ("lublin", "lublin"), ("lubllin", "lublin"),
   ("katovice", "katowice"), ("katowice", "katowice"),
   ("rzeszow", "rzeszow"), ("rzeszów", "rzeszow")]

def defaultDmap : List (Char × Char) :=
  [('ą','a'), ('ć','c'), ('ę','e'), ('ł','l'), ('ń','n'),
   ('ó','o'), ('ś','s'), ('ź','z'), ('ż','z'),
   ('Ą','A'), ('Ć','C'), ('Ę','E'), ('Ł','L'), ('Ń','N'),
   ('Ó','O'), ('Ś','S'), ('Ź','Z'), ('Ż','Z')]

def defaultPfxs : List String :=
  ["gmina", "gm.", "miasto", "m.", "powiat", "pow.", "województwo", "woj."]

/-- The three loaded data tables of `GeocodingDataManager`. -/
structure DataManager where
  corrections : List (String × String)
  dmap : List (Char × Char)
  pfxs : List String
deriving DecidableEq

def defaultDM : DataManager := ⟨defaultCorrections, defaultDmap, defaultPfxs⟩

/-- `GeocodingDataManager.clean_city_name`: strip, then remove the first
common prefix whose lower-cased `prefix + " "` form starts the
lower-cased city, slicing the original-cased string. -/
def clean_city_name (dm : DataManager) (city : String) : String :=
  let s := pyStrip city.toList
  let sLower := s.map toLowerPL
  match dm.pfxs.find? (fun p => (p.toList ++ [' ']).isPrefixOf sLower) with
  | some p => ⟨pyStrip (s.drop p.toList.length)⟩
  | none => ⟨s⟩

/-- `GeocodingDataManager.get_corrected_city`: dictionary lookup of the
lower-cased, stripped city, defaulting to the input itself. -/
def get_corrected_city (dm : DataManager) (city : String) : String :=
  match dm.corrections.find? (fun kv => kv.1 = String.mk (pyStrip (city.toList.map toLowerPL))) with
  | some kv => kv.2
  | none => city

/-- `GeocodingDataManager.remove_diacritics`: sequential `str.replace`
over the mapping table (all keys are single characters). -/
def remove_diacritics (dm : DataManager) (text : String) : String :=
  ⟨dm.dmap.foldl (fun acc kv => acc.map (fun c => if c = kv.1 then kv.2 else c))
    text.toList⟩

/-! ## `SimpleFuzzyMatcher.generate_variants` (lines 216-241)

The Python code accumulates the five derived forms in a `set` (whose
iteration order is unspecified); the model keeps them as a deduplicated
list.  All properties proved about the result (bound, distinctness,
membership) are order-independent. -/

def generate_variants (dm : DataManager) (city : String) : List String :=
  let cleaned := clean_city_name dm city
  let noDia := remove_diacritics dm city
  let corrected := get_corrected_city dm city
  let corrCleaned := clean_city_name dm corrected
  (([city, cleaned, noDia, corrected, corrCleaned].dedup).filter
    (fun v => decide (v ≠ "" ∧ 1 < v.length))).take 8

/-! ## Region validator (`PolishGeocodingWorker._is_in_poland`, lines 382-385) -/

/-- `self.poland_bounds` and the bounding-box membership check
(49.0 ≤ lat ≤ 54.9 and 14.1 ≤ lng ≤ 24.2, decimals written as exact
rationals). -/
def is_in_poland (lat lng : ℚ) : Bool :=
  decide (49 ≤ lat ∧ lat ≤ mkRat 549 10 ∧ mkRat 141 10 ≤ lng ∧ lng ≤ mkRat 242 10)

/-! ## External lookup oracle and `_geocode_basic` (lines 362-380) -/

/-- The external provider: one query string in, at most one candidate
coordinate out.  `none` models both an empty result and a per-query
provider error (identical control flow in the source). -/
def Oracle : Type := String → Option (ℚ × ℚ)

/-- The query loop of `_geocode_basic`: issue queries in order, return
the first candidate that passes the Poland bounding box (tagged
"nominatim"), also reporting the list of queries actually issued. -/
def tryQueries (oracle : Oracle) : List String → Option (ℚ × ℚ × String) × List String
  | [] => (none, [])
  | q :: rest =>
    match oracle q with
    | some (la, lo) =>
      if is_in_poland la lo then (some (la, lo, "nominatim"), [q])
      else
        let r := tryQueries oracle rest
        (r.1, q :: r.2)
    | none =>
      let r := tryQueries oracle rest
      (r.1, q :: r.2)

/-- `PolishGeocodingWorker._geocode_basic`. -/
def geocode_basic (oracle : Oracle) (city : String) :
    Option (ℚ × ℚ × String) × List String :=
  tryQueries oracle [city ++ ", Poland", city ++ ", PL"]

/-! ## `PolishGeocodingWorker._try_geocoding_strategies` (lines 329-360) -/

/-- Sequencing of two call-counting attempts: keep the first success,
concatenating issued queries. -/
def orElseCalls (a : Option (ℚ × ℚ × String) × List String)
    (b : Unit → Option (ℚ × ℚ × String) × List String) :
    Option (ℚ × ℚ × String) × List String :=
  match a with
  | (some r, cs) => (some r, cs)
  | (none, cs) =>
    let r := b ()
    (r.1, cs ++ r.2)

/-- Replace the source tag of a successful attempt. -/
def retag (tag : String) (a : Option (ℚ × ℚ × String) × List String) :
    Option (ℚ × ℚ × String) × List String :=
  match a with
  | (some (la, lo, _), cs) => (some (la, lo, tag), cs)
  | (none, cs) => (none, cs)

/-- Strategy 4 of `_try_geocoding_strategies`: try each generated
variant other than the original, tagging a success "fuzzy". -/
def tryVariants (oracle : Oracle) (city : String) :
    List String → Option (ℚ × ℚ × String) × List String
  | [] => (none, [])
  | v :: rest =>
    if v = city then tryVariants oracle city rest
    else
      match geocode_basic oracle v with
      | (some (la, lo, _), cs) => (some (la, lo, "fuzzy"), cs)
      | (none, cs) =>
        let r := tryVariants oracle city rest
        (r.1, cs ++ r.2)

/-- `PolishGeocodingWorker._try_geocoding_strategies`. -/
def try_geocoding_strategies (oracle : Oracle) (dm : DataManager) (city : String) :
    Option (ℚ × ℚ × String) × List String :=
  orElseCalls (geocode_basic oracle city) (fun _ =>
    orElseCalls
      (if clean_city_name dm city ≠ city then
        retag "cleaned" (geocode_basic oracle (clean_city_name dm city))
      else (none, [])) (fun _ =>
      orElseCalls
        (if get_corrected_city dm city ≠ city then
          retag "corrected" (geocode_basic oracle (get_corrected_city dm city))
        else (none, [])) (fun _ =>
        tryVariants oracle city (generate_variants dm city))))

/-! ## Database state (src/database.py)

Rows of the `properties`, `geocoding_cache` and `failed_geocoding`
tables, restricted to the columns the geocoding pipeline reads or
writes.  `geocoding_cache.city_key` is a PRIMARY KEY (at most one row
per key); `failed_geocoding.id` is an AUTOINCREMENT key and — crucially
— the table has **no** uniqueness constraint on `property_id`, so its
rows are modelled as a plain list in insertion order.  The geocoding
configuration record is reduced to the two fields the modelled code
consults (`enabled`, `max_attempts`). -/

structure Property where
  id : ℕ
  city : String
  title : String
  latitude : Option ℚ
  longitude : Option ℚ
  geocoded : Bool
  geocoding_source : Option String
  geocoding_attempts : ℕ
deriving DecidableEq

structure CacheRow where
  latitude : Option ℚ
  longitude : Option ℚ
  source : String
  success : Bool
deriving DecidableEq

structure FailedRow where
  property_id : ℕ
  city : String
  property_title : String
  attempts : ℕ
  resolved : Bool
deriving DecidableEq

structure DBState where
  properties : List Property
  cache : List (String × CacheRow)
  failed : List FailedRow
  geocoding_enabled : Bool
  max_attempts : ℕ
deriving DecidableEq

/-- `SELECT ... FROM properties WHERE id=?` (id is the primary key). -/
def findProp (db : DBState) (pid : ℕ) : Option Property :=
  db.properties.find? (fun p => p.id = pid)

/-- `DatabaseManager.get_cached_geocoding` (lines 613-625): look up the
row under the normalized key with `success = TRUE` and return its
`(latitude, longitude)` columns (each nullable) as stored. -/
def get_cached_geocoding (db : DBState) (city : String) :
    Option (Option ℚ × Option ℚ) :=
  match db.cache.find? (fun kv => kv.1 = normalize_city city ∧ kv.2.success = true) with
  | some kv => some (kv.2.latitude, kv.2.longitude)
  | none => none

/-- `DatabaseManager.save_geocoding_result` (lines 627-638):
`INSERT OR REPLACE` keyed by the normalized city key. -/
def save_geocoding_result (db : DBState) (city : String)
    (la lo : Option ℚ) (source : String) (success : Bool) : DBState :=
  { db with cache :=
      (normalize_city city, ⟨la, lo, source, success⟩) ::
        db.cache.filter (fun kv => ¬ kv.1 = normalize_city city) }

/-- `DatabaseManager._add_failed_geocoding` (lines 685-691): an
`INSERT OR IGNORE` into `failed_geocoding`; since the table has no
uniqueness constraint on `property_id`, the statement always inserts a
fresh row. -/
def add_failed_geocoding (db : DBState) (pid : ℕ) (city title : String)
    (attempts : ℕ) : DBState :=
  { db with failed := db.failed ++ [⟨pid, city, title, attempts, false⟩] }

/-- The row update of the `UPDATE properties SET ...` statement in
`update_property_geocoding`: coordinates, geocoded flag (TRUE iff both
coordinates are non-NULL), source, attempts incremented. -/
def bumpProp (pid : ℕ) (la lo : Option ℚ) (source : String) (p : Property) :
    Property :=
  if p.id = pid then
    { p with latitude := la, longitude := lo,
             geocoded := la.isSome && lo.isSome,
             geocoding_source := some source,
             geocoding_attempts := p.geocoding_attempts + 1 }
  else p

/-- `DatabaseManager.update_property_geocoding` (lines 640-664): update
the property row (success iff both coordinates are non-NULL, attempts
incremented), then — on failure — re-read the row and escalate when the
incremented attempt counter has reached `max_attempts`. -/
def update_property_geocoding (db : DBState) (pid : ℕ)
    (la lo : Option ℚ) (source : String) : DBState :=
  if la.isSome && lo.isSome then
    { db with properties := db.properties.map (bumpProp pid la lo source) }
  else
    match (db.properties.map (bumpProp pid la lo source)).find?
        (fun p => p.id = pid) with
    | some p =>
      if db.max_attempts ≤ p.geocoding_attempts then
        add_failed_geocoding
          { db with properties := db.properties.map (bumpProp pid la lo source) }
          pid p.city p.title p.geocoding_attempts
      else { db with properties := db.properties.map (bumpProp pid la lo source) }
    | none => { db with properties := db.properties.map (bumpProp pid la lo source) }

/-- `DatabaseManager.manual_geocoding_update` (lines 666-683): write the
manual coordinates to the property, mark every `failed_geocoding` row of
that property resolved, and return whether the **last** UPDATE statement
(the `failed_geocoding` one) matched any row. -/
def manual_geocoding_update (db : DBState) (pid : ℕ) (la lo : ℚ) :
    DBState × Bool :=
  ({ db with
      properties := db.properties.map (fun p =>
        if p.id = pid then
          { p with latitude := some la, longitude := some lo,
                   geocoded := true, geocoding_source := some "manual" }
        else p),
      failed := db.failed.map (fun f =>
        if f.property_id = pid then { f with resolved := true } else f) },
   0 < db.failed.countP (fun f => decide (f.property_id = pid)))

/-- `DatabaseManager.get_properties_for_geocoding` (lines 548-572):
non-geocoded properties with attempts below the maximum, limited; the
`ORDER BY first_seen` is modelled by the ambient list order. -/
def get_properties_for_geocoding (db : DBState) (limit : ℕ) : List Property :=
  (db.properties.filter (fun p =>
    p.geocoded = false ∧ p.geocoding_attempts < db.max_attempts)).take limit

/-! ## `PolishGeocodingWorker.geocode_property` (lines 263-327) -/

/-- The fields of the `GeocodingResult` dataclass that the model tracks
(`duration_seconds` omitted). -/
structure GeoResult where
  property_id : ℕ
  city : String
  success : Bool
  latitude : Option ℚ
  longitude : Option ℚ
  source : Option String
  error : Option String
deriving DecidableEq

/-- `PolishGeocodingWorker.geocode_property`.  The `exc` flag models an
exception raised inside the `try` block after the cache lookup (the
branch handled by the `except` clause, lines 317-327); the third
component of the result is the list of external queries issued. -/
def geocode_property (oracle : Oracle) (dm : DataManager) (exc : Bool)
    (db : DBState) (pid : ℕ) (city : String) :
    GeoResult × DBState × List String :=
  match get_cached_geocoding db city with
  | some (la, lo) =>
    (⟨pid, city, true, la, lo, some "cache", none⟩,
     update_property_geocoding db pid la lo "cache", [])
  | none =>
    if exc then
      (⟨pid, city, false, none, none, none,
        some ("Geocoding error for " ++ city)⟩,
       update_property_geocoding db pid none none "error", [])
    else
      let sr := try_geocoding_strategies oracle dm city
      match sr.1 with
      | some (la, lo, src) =>
        if is_in_poland la lo then
          (⟨pid, city, true, some la, some lo, some src, none⟩,
           update_property_geocoding
             (save_geocoding_result db city (some la) (some lo) src true)
             pid (some la) (some lo) src,
           sr.2)
        else
          (⟨pid, city, false, none, none, none,
            some ("Failed to geocode " ++ city ++ " (no valid Poland location found)")⟩,
           update_property_geocoding
             (save_geocoding_result db city none none "failed" false)
             pid none none "failed",
           sr.2)
      | none =>
        (⟨pid, city, false, none, none, none,
          some ("Failed to geocode " ++ city ++ " (no valid Poland location found)")⟩,
         update_property_geocoding
           (save_geocoding_result db city none none "failed" false)
           pid none none "failed",
         sr.2)

/-! ## `PolishGeocodingWorker.process_batch` (lines 387-453) -/

/-- The fields of `BatchGeocodingResult` the model tracks
(`duration_seconds` and `timestamp` omitted). -/
structure BatchResult where
  total_processed : ℕ
  successful : ℕ
  failed : ℕ
  cached : ℕ
  errors : List String
deriving DecidableEq

/-- The per-property loop of `process_batch`. -/
def processProps (oracle : Oracle) (dm : DataManager) :
    DBState → List Property → BatchResult × DBState × List String
  | db, [] => (⟨0, 0, 0, 0, []⟩, db, [])
  | db, p :: rest =>
    let step := geocode_property oracle dm false db p.id p.city
    let b := processProps oracle dm step.2.1 rest
    ({ total_processed := b.1.total_processed + 1,
       successful := b.1.successful +
         (if step.1.success && step.1.source != some "cache" then 1 else 0),
       cached := b.1.cached +
         (if step.1.success && step.1.source == some "cache" then 1 else 0),
       failed := b.1.failed + (if step.1.success then 0 else 1),
       errors :=
         (if step.1.success = false then
            match step.1.error with
            | some e => ["Property " ++ toString p.id ++ ": " ++ e]
            | none => []
          else []) ++ b.1.errors },
     b.2.1, step.2.2 ++ b.2.2)

/-- `PolishGeocodingWorker.process_batch`. -/
def process_batch (oracle : Oracle) (dm : DataManager) (db : DBState)
    (batch_size : ℕ) : BatchResult × DBState × List String :=
  if db.geocoding_enabled = false then
    (⟨0, 0, 0, 0, ["Geocoding is disabled"]⟩, db, [])
  else
    processProps oracle dm db (get_properties_for_geocoding db batch_size)

/-! ## `GeocodingService.manual_geocoding_fix` (lines 631-651) -/

/-- `GeocodingService.manual_geocoding_fix`: reject coordinates outside
the Poland bounding box, otherwise delegate to
`DatabaseManager.manual_geocoding_update`. -/
def manual_geocoding_fix (db : DBState) (pid : ℕ) (la lo : ℚ) :
    DBState × Bool :=
  if is_in_poland la lo then manual_geocoding_update db pid la lo
  else (db, false)

/-! ## Specification transcription of the Resolution Strategy Chain

The two definitions below transcribe the claim's own wording (C1): an
ordered list of attempted names with their strategy tags, each attempt
issuing the loosely-qualified and then strictly-qualified query and
accepting the first in-region candidate.  They exist to be compared with
`try_geocoding_strategies`, which is translated from the source. -/

def attemptListSpec (dm : DataManager) (city : String) : List (String × String) :=
  (city, "nominatim") ::
    ((if clean_city_name dm city ≠ city then [(clean_city_name dm city, "cleaned")]
      else []) ++
     (if get_corrected_city dm city ≠ city then
        [(get_corrected_city dm city, "corrected")]
      else []) ++
     ((generate_variants dm city).filter (fun v => ¬ v = city)).map
       (fun v => (v, "fuzzy")))

def strategyChainSpec (oracle : Oracle) :
    List (String × String) → Option (ℚ × ℚ × String) × List String
  | [] => (none, [])
  | (name, tag) :: rest =>
    match tryQueries oracle [name ++ ", Poland", name ++ ", PL"] with
    | (some (la, lo, _), cs) => (some (la, lo, tag), cs)
    | (none, cs) =>
      let r := strategyChainSpec oracle rest
      (r.1, cs ++ r.2)

/-! ## Concrete instances used by witnesses and counterexamples -/

/-- Oracle that knows a single query. -/
def oracleW : Oracle := fun q => if q = "Warszawa, Poland" then some (52, 21) else none

/-- Oracle that never finds anything. -/
def oracleNone : Oracle := fun _ => none

/-- One never-geocoded property one attempt away from the maximum. -/
def dbC4 : DBState :=
  ⟨[⟨1, "Xyzzy", "t", none, none, false, none, 1⟩], [], [], true, 2⟩

def dbC4step1 : DBState := (geocode_property oracleNone defaultDM false dbC4 1 "Xyzzy").2.1

def dbC4step2 : DBState := (geocode_property oracleNone defaultDM false dbC4step1 1 "Xyzzy").2.1

/-- A property plus a primed cache entry for its city. -/
def dbCache : DBState :=
  ⟨[⟨1, "Warszawa", "t", none, none, false, none, 0⟩],
   [("warszawa", ⟨some 52, some 21, "nominatim", true⟩)], [], true, 3⟩

/-- An escalated property with one unresolved failed-geocoding row. -/
def dbMan : DBState :=
  ⟨[⟨7, "Xyzzy", "t", none, none, false, none, 3⟩], [],
   [⟨7, "Xyzzy", "t", 3, false⟩], true, 3⟩

/-- A property that exists but has no failed-geocoding row. -/
def dbNoFail : DBState :=
  ⟨[⟨9, "Warszawa", "t", none, none, false, none, 1⟩], [], [], true, 3⟩

/-- A disabled-geocoding state with pending work. -/
def dbDisabled : DBState :=
  ⟨[⟨1, "Warszawa", "t", none, none, false, none, 0⟩], [], [], false, 3⟩

/-! ## Helper lemmas about the database operations -/

/-- The column view of a property row that the geocoding pipeline
writes: coordinates, geocoded flag and source. -/
def propView (db : DBState) (pid : ℕ) :
    Option (Option ℚ × Option ℚ × Bool × Option String) :=
  (findProp db pid).map (fun p => (p.latitude, p.longitude, p.geocoded, p.geocoding_source))

def attemptsOf (db : DBState) : List ℕ :=
  db.properties.map (fun p => p.geocoding_attempts)

theorem update_properties_eq (db : DBState) (pid : ℕ) (la lo : Option ℚ)
    (src : String) :
    (update_property_geocoding db pid la lo src).properties =
      db.properties.map (bumpProp pid la lo src) := by
  unfold update_property_geocoding add_failed_geocoding
  split
  · rfl
  · split
    · split
      · rfl
      · rfl
    · rfl

theorem update_cache_eq (db : DBState) (pid : ℕ) (la lo : Option ℚ)
    (src : String) :
    (update_property_geocoding db pid la lo src).cache = db.cache := by
  unfold update_property_geocoding add_failed_geocoding
  split
  · rfl
  · split
    · split
      · rfl
      · rfl
    · rfl

theorem bumpProp_id (pid : ℕ) (la lo : Option ℚ) (src : String)
    (p : Property) : (bumpProp pid la lo src p).id = p.id := by
  unfold bumpProp
  split <;> rfl

theorem find?_map_keepId (l : List Property) (pid : ℕ) (f : Property → Property)
    (hf : ∀ p, (f p).id = p.id) :
    (l.map f).find? (fun p => p.id = pid)
      = (l.find? (fun p => p.id = pid)).map f := by
  induction l with
  | nil => rfl
  | cons q t ih =>
    by_cases hq : q.id = pid
    · simp [List.find?, hq, hf]
    · simp [List.find?, hq, hf, ih]

theorem findProp_update (db : DBState) (pid : ℕ) (la lo : Option ℚ)
    (src : String) :
    findProp (update_property_geocoding db pid la lo src) pid
      = (findProp db pid).map (fun p =>
          { p with latitude := la, longitude := lo,
                   geocoded := la.isSome && lo.isSome,
                   geocoding_source := some src,
                   geocoding_attempts := p.geocoding_attempts + 1 }) := by
  unfold findProp
  rw [update_properties_eq, find?_map_keepId _ _ _ (bumpProp_id pid la lo src)]
  cases h : db.properties.find? (fun p => p.id = pid) with
  | none => rfl
  | some p =>
    have hp : p.id = pid := by
      have := List.find?_some h
      simpa using this
    simp [bumpProp, hp]

theorem propView_update (db : DBState) (pid : ℕ) (la lo : Option ℚ)
    (src : String) :
    propView (update_property_geocoding db pid la lo src) pid
      = (findProp db pid).map
          (fun _ => (la, lo, la.isSome && lo.isSome, some src)) := by
  unfold propView
  rw [findProp_update, Option.map_map]
  rfl

/-! ## Claim theorems -/

/-- C7: when geocoding is administratively disabled, a batch run returns
the all-zero outcome with the informational message, fetches no targets,
issues no external query, and leaves the database state unchanged. -/
theorem batch_skips_when_disabled (oracle : Oracle) (dm : DataManager)
    (db : DBState) (n : ℕ) (h : db.geocoding_enabled = false) :
    process_batch oracle dm db n
      = (⟨0, 0, 0, 0, ["Geocoding is disabled"]⟩, db, []) := by
  unfold process_batch
  simp [h]

theorem batch_skips_when_disabled_witness :
    dbDisabled.geocoding_enabled = false ∧
    process_batch oracleNone defaultDM dbDisabled 10
      = (⟨0, 0, 0, 0, ["Geocoding is disabled"]⟩, dbDisabled, []) :=
  ⟨by decide, batch_skips_when_disabled oracleNone defaultDM dbDisabled 10 (by decide)⟩

/-- C2: a successful cache entry under the city's normalized key makes
`geocode_property` issue zero external queries, return a success tagged
"cache" with the cached coordinates, write those coordinates back to the
property, and leave the cache itself unchanged. -/
theorem cache_hit_short_circuits (oracle : Oracle) (dm : DataManager)
    (exc : Bool) (db : DBState) (pid : ℕ) (city : String) (la lo : ℚ)
    (h : get_cached_geocoding db city = some (some la, some lo)) :
    (geocode_property oracle dm exc db pid city).2.2 = [] ∧
    (geocode_property oracle dm exc db pid city).1
      = ⟨pid, city, true, some la, some lo, some "cache", none⟩ ∧
    propView (geocode_property oracle dm exc db pid city).2.1 pid
      = (findProp db pid).map (fun _ => (some la, some lo, true, some "cache")) ∧
    (geocode_property oracle dm exc db pid city).2.1.cache = db.cache := by
  unfold geocode_property
  rw [h]
  exact ⟨rfl, rfl, propView_update db pid (some la) (some lo) "cache",
    update_cache_eq db pid (some la) (some lo) "cache"⟩

theorem cache_hit_short_circuits_witness :
    get_cached_geocoding dbCache "Warszawa" = some (some 52, some 21) ∧
    ((geocode_property oracleNone defaultDM false dbCache 1 "Warszawa").2.2 = [] ∧
     (geocode_property oracleNone defaultDM false dbCache 1 "Warszawa").1
       = ⟨1, "Warszawa", true, some 52, some 21, some "cache", none⟩ ∧
     propView (geocode_property oracleNone defaultDM false dbCache 1 "Warszawa").2.1 1
       = (findProp dbCache 1).map (fun _ => (some 52, some 21, true, some "cache")) ∧
     (geocode_property oracleNone defaultDM false dbCache 1 "Warszawa").2.1.cache
       = dbCache.cache) :=
  ⟨by decide,
   cache_hit_short_circuits oracleNone defaultDM false dbCache 1 "Warszawa" 52 21
     (by decide)⟩

theorem attemptsOf_update (db : DBState) (pid : ℕ) (la lo : Option ℚ)
    (src : String) :
    attemptsOf (update_property_geocoding db pid la lo src)
      = db.properties.map (fun p =>
          if p.id = pid then p.geocoding_attempts + 1 else p.geocoding_attempts) := by
  unfold attemptsOf
  rw [update_properties_eq, List.map_map]
  apply List.map_congr_left
  intro p _
  by_cases hp : p.id = pid <;> simp [bumpProp, hp]

theorem save_properties_eq (db : DBState) (city : String) (la lo : Option ℚ)
    (src : String) (success : Bool) :
    (save_geocoding_result db city la lo src success).properties
      = db.properties := rfl

/-- The per-call attempt-counter effect of `geocode_property`: every
branch runs `update_property_geocoding` exactly once. -/
theorem geocode_property_attempts (oracle : Oracle) (dm : DataManager)
    (exc : Bool) (db : DBState) (pid : ℕ) (city : String) :
    attemptsOf (geocode_property oracle dm exc db pid city).2.1
      = db.properties.map (fun p =>
          if p.id = pid then p.geocoding_attempts + 1 else p.geocoding_attempts) := by
  unfold geocode_property
  cases h : get_cached_geocoding db city with
  | some c =>
    cases c with
    | mk la lo => exact attemptsOf_update db pid la lo "cache"
  | none =>
    cases exc with
    | true => exact attemptsOf_update db pid none none "error"
    | false =>
      simp only []
      cases hs : (try_geocoding_strategies oracle dm city).1 with
      | none =>
        have := attemptsOf_update
          (save_geocoding_result db city none none "failed" false) pid none none "failed"
        simpa [save_properties_eq] using this
      | some r =>
        rcases r with ⟨la, lo, src⟩
        by_cases hin : is_in_poland la lo = true
        · simp only [hin, if_true]
          have := attemptsOf_update
            (save_geocoding_result db city (some la) (some lo) src true)
            pid (some la) (some lo) src
          simpa [save_properties_eq] using this
        · simp only [hin]
          simp only [Bool.not_eq_true] at hin
          simp only [hin, Bool.false_eq_true, if_false]
          have := attemptsOf_update
            (save_geocoding_result db city none none "failed" false) pid none none "failed"
          simpa [save_properties_eq] using this

theorem getD_map_le (l : List Property) (f g : Property → ℕ)
    (h : ∀ p, f p ≤ g p) (i : ℕ) :
    (l.map f).getD i 0 ≤ (l.map g).getD i 0 := by
  induction l generalizing i with
  | nil => simp
  | cons q t ih =>
    cases i with
    | zero => simpa using h q
    | succ j => simpa using ih j

theorem geocode_property_attempts_mono (oracle : Oracle) (dm : DataManager)
    (exc : Bool) (db : DBState) (pid : ℕ) (city : String) (i : ℕ) :
    (attemptsOf db).getD i 0
      ≤ (attemptsOf (geocode_property oracle dm exc db pid city).2.1).getD i 0 := by
  rw [geocode_property_attempts]
  unfold attemptsOf
  apply getD_map_le
  intro p
  by_cases hp : p.id = pid <;> simp [hp]

theorem processProps_attempts_mono (oracle : Oracle) (dm : DataManager)
    (l : List Property) (db : DBState) (i : ℕ) :
    (attemptsOf db).getD i 0
      ≤ (attemptsOf (processProps oracle dm db l).2.1).getD i 0 := by
  induction l generalizing db with
  | nil => exact le_refl _
  | cons p t ih =>
    calc (attemptsOf db).getD i 0
        ≤ (attemptsOf (geocode_property oracle dm false db p.id p.city).2.1).getD i 0 :=
          geocode_property_attempts_mono oracle dm false db p.id p.city i
      _ ≤ _ := ih _

/-- C3: processing a property increments its attempt counter by exactly 1
and leaves every other counter unchanged, on every outcome (cache hit,
fresh success, no-match failure, exception); a whole batch pass never
decreases any counter; and a manual fix leaves all counters unchanged. -/
theorem attempts_increment_per_attempt (oracle : Oracle) (dm : DataManager)
    (exc : Bool) (db : DBState) (pid : ℕ) (city : String) (la lo : ℚ)
    (n i : ℕ) :
    attemptsOf (geocode_property oracle dm exc db pid city).2.1
      = db.properties.map (fun p =>
          if p.id = pid then p.geocoding_attempts + 1 else p.geocoding_attempts) ∧
    (attemptsOf db).getD i 0
      ≤ (attemptsOf (process_batch oracle dm db n).2.1).getD i 0 ∧
    attemptsOf (manual_geocoding_fix db pid la lo).1 = attemptsOf db := by
  refine ⟨geocode_property_attempts oracle dm exc db pid city, ?_, ?_⟩
  · unfold process_batch
    split
    · exact le_refl _
    · exact processProps_attempts_mono oracle dm _ db i
  · unfold manual_geocoding_fix
    split
    · unfold manual_geocoding_update attemptsOf
      simp only [List.map_map]
      apply List.map_congr_left
      intro p _
      by_cases hp : p.id = pid <;> simp [hp]
    · rfl

theorem propView_manual (db : DBState) (pid : ℕ) (la lo : ℚ) :
    propView (manual_geocoding_update db pid la lo).1 pid
      = (findProp db pid).map (fun _ => (some la, some lo, true, some "manual")) := by
  unfold propView findProp manual_geocoding_update
  simp only []
  rw [find?_map_keepId _ pid _ (fun p => by split <;> rfl)]
  cases h : db.properties.find? (fun p => p.id = pid) with
  | none => rfl
  | some p =>
    have hp : p.id = pid := by
      have := List.find?_some h
      simpa using this
    simp [hp]

/-- C5: a manual coordinate fix with an out-of-region coordinate is
rejected (returns failure) and leaves the whole state — the target and
its escalated entries included — unchanged; with an in-region coordinate
it writes the coordinates with source "manual" and the geocoded flag to
the target and marks every escalated entry of that target id resolved. -/
theorem manual_fix_region_check (db : DBState) (pid : ℕ) (la lo : ℚ) :
    (is_in_poland la lo = false → manual_geocoding_fix db pid la lo = (db, false)) ∧
    (is_in_poland la lo = true →
      propView (manual_geocoding_fix db pid la lo).1 pid
        = (findProp db pid).map (fun _ => (some la, some lo, true, some "manual")) ∧
      (manual_geocoding_fix db pid la lo).1.failed
        = db.failed.map (fun f =>
            if f.property_id = pid then { f with resolved := true } else f)) := by
  constructor
  · intro h
    unfold manual_geocoding_fix
    simp [h]
  · intro h
    unfold manual_geocoding_fix
    simp only [h, if_true]
    exact ⟨propView_manual db pid la lo, rfl⟩

theorem manual_fix_region_check_witness :
    manual_geocoding_fix dbMan 7 10 10 = (dbMan, false) ∧
    propView (manual_geocoding_fix dbMan 7 52 20).1 7
      = (findProp dbMan 7).map (fun _ => (some 52, some 20, true, some "manual")) ∧
    (manual_geocoding_fix dbMan 7 52 20).1.failed
      = dbMan.failed.map (fun f =>
          if f.property_id = 7 then { f with resolved := true } else f) :=
  ⟨(manual_fix_region_check dbMan 7 10 10).1 (by decide),
   ((manual_fix_region_check dbMan 7 52 20).2 (by decide)).1,
   ((manual_fix_region_check dbMan 7 52 20).2 (by decide)).2⟩

/-- C9: for a property that exists but has no failed-geocoding row, an
in-region manual fix writes the coordinates, source "manual" and the
geocoded flag to the property, yet returns `false`, because the returned
rowcount is that of the last UPDATE statement, which targets the
`failed_geocoding` table. -/
theorem manual_fix_result_reflects_failed_table (db : DBState) (pid : ℕ)
    (la lo : ℚ) (h1 : (findProp db pid).isSome = true)
    (h2 : db.failed.countP (fun f => decide (f.property_id = pid)) = 0)
    (h3 : is_in_poland la lo = true) :
    (manual_geocoding_fix db pid la lo).2 = false ∧
    propView (manual_geocoding_fix db pid la lo).1 pid
      = some (some la, some lo, true, some "manual") := by
  constructor
  · unfold manual_geocoding_fix manual_geocoding_update
    simp [h3, h2]
  · unfold manual_geocoding_fix
    simp only [h3, if_true]
    rw [propView_manual]
    cases h : findProp db pid with
    | none => rw [h] at h1; simp at h1
    | some p => simp

theorem manual_fix_result_reflects_failed_table_witness :
    (findProp dbNoFail 9).isSome = true ∧
    dbNoFail.failed.countP (fun f => decide (f.property_id = 9)) = 0 ∧
    is_in_poland 52 20 = true ∧
    ((manual_geocoding_fix dbNoFail 9 52 20).2 = false ∧
     propView (manual_geocoding_fix dbNoFail 9 52 20).1 9
       = some (some 52, some 20, true, some "manual")) :=
  ⟨by decide, by decide, by decide,
   manual_fix_result_reflects_failed_table dbNoFail 9 52 20 (by decide) (by decide)
     (by decide)⟩

/-- C4 (failing input): a property one attempt below the maximum is
processed twice with a provider that never matches.  The first pass
escalates it (one `failed_geocoding` row); the second pass — the claim
says escalation is idempotent — appends a second row for the same
property id, because `INSERT OR IGNORE` has no uniqueness constraint on
`property_id` to conflict with. -/
theorem escalation_appends_duplicate :
    dbC4step1.failed.countP (fun f => decide (f.property_id = 1)) = 1 ∧
    dbC4step2.failed.countP (fun f => decide (f.property_id = 1)) = 2 :=
  ⟨by decide, by decide⟩

theorem update_failed_eq (db : DBState) (pid : ℕ) (la lo : Option ℚ)
    (src : String) :
    (update_property_geocoding db pid la lo src).failed
      = db.failed ++
        (if la.isSome && lo.isSome then []
         else
           match findProp db pid with
           | some p =>
             if db.max_attempts ≤ p.geocoding_attempts + 1 then
               [⟨pid, p.city, p.title, p.geocoding_attempts + 1, false⟩]
             else []
           | none => []) := by
  unfold update_property_geocoding add_failed_geocoding findProp
  split
  · simp_all
  · rw [find?_map_keepId _ pid _ (bumpProp_id pid la lo src)]
    cases h : db.properties.find? (fun p => p.id = pid) with
    | none => simp
    | some p =>
      have hp : p.id = pid := by
        have := List.find?_some h
        simpa using this
      simp [bumpProp, hp]
      split <;> simp

/-- C10 (counterexample to the claim as stated): on the exception path
the property row is *not* the only thing updated — when the incremented
attempt counter reaches the configured maximum, a `failed_geocoding`
row is appended too. -/
theorem exception_path_also_escalates :
    dbC4.failed = [] ∧
    (geocode_property oracleNone defaultDM true dbC4 1 "Xyzzy").2.1.failed
      = [⟨1, "Xyzzy", "t", 2, false⟩] :=
  ⟨rfl, by decide⟩

/-- C10 (amended): for a cache miss, the no-match path stores a failure
entry (source "failed", success FALSE) under the city's normalized key,
while the exception path writes no cache entry; on the exception path
the property row is updated (source "error", attempts incremented) and
the failed-geocoding table is extended exactly by the escalation row
when the incremented counter reaches the maximum — as on any failure —
and by nothing otherwise. -/
theorem cache_frame_on_failure_paths (oracle : Oracle) (dm : DataManager)
    (db : DBState) (pid : ℕ) (city : String)
    (hc : get_cached_geocoding db city = none)
    (hs : (try_geocoding_strategies oracle dm city).1 = none) :
    ((geocode_property oracle dm false db pid city).2.1.cache
      = (normalize_city city, ⟨none, none, "failed", false⟩) ::
          db.cache.filter (fun kv => ¬ kv.1 = normalize_city city)) ∧
    ((geocode_property oracle dm true db pid city).2.1.cache = db.cache) ∧
    (propView (geocode_property oracle dm true db pid city).2.1 pid
      = (findProp db pid).map (fun _ => (none, none, false, some "error"))) ∧
    (attemptsOf (geocode_property oracle dm true db pid city).2.1
      = db.properties.map (fun p =>
          if p.id = pid then p.geocoding_attempts + 1 else p.geocoding_attempts)) ∧
    ((geocode_property oracle dm true db pid city).2.1.failed
      = db.failed ++
          (match findProp db pid with
           | some p =>
             if db.max_attempts ≤ p.geocoding_attempts + 1 then
               [⟨pid, p.city, p.title, p.geocoding_attempts + 1, false⟩]
             else []
           | none => [])) := by
  refine ⟨?_, ?_, ?_, ?_, ?_⟩
  · unfold geocode_property
    rw [hc]
    simp only [Bool.false_eq_true, if_false, hs]
    rw [update_cache_eq]
    rfl
  · unfold geocode_property
    rw [hc]
    exact update_cache_eq db pid none none "error"
  · unfold geocode_property
    rw [hc]
    exact propView_update db pid none none "error"
  · unfold geocode_property
    rw [hc]
    exact attemptsOf_update db pid none none "error"
  · unfold geocode_property
    rw [hc]
    exact update_failed_eq db pid none none "error"

theorem cache_frame_on_failure_paths_witness :
    get_cached_geocoding dbC4 "Xyzzy" = none ∧
    (try_geocoding_strategies oracleNone defaultDM "Xyzzy").1 = none ∧
    (((geocode_property oracleNone defaultDM false dbC4 1 "Xyzzy").2.1.cache
       = (normalize_city "Xyzzy", ⟨none, none, "failed", false⟩) ::
           dbC4.cache.filter (fun kv => ¬ kv.1 = normalize_city "Xyzzy")) ∧
     ((geocode_property oracleNone defaultDM true dbC4 1 "Xyzzy").2.1.cache
       = dbC4.cache) ∧
     (propView (geocode_property oracleNone defaultDM true dbC4 1 "Xyzzy").2.1 1
       = (findProp dbC4 1).map (fun _ => (none, none, false, some "error"))) ∧
     (attemptsOf (geocode_property oracleNone defaultDM true dbC4 1 "Xyzzy").2.1
       = dbC4.properties.map (fun p =>
           if p.id = 1 then p.geocoding_attempts + 1 else p.geocoding_attempts)) ∧
     ((geocode_property oracleNone defaultDM true dbC4 1 "Xyzzy").2.1.failed
       = dbC4.failed ++
           (match findProp dbC4 1 with
            | some p =>
              if dbC4.max_attempts ≤ p.geocoding_attempts + 1 then
                [⟨1, p.city, p.title, p.geocoding_attempts + 1, false⟩]
              else []
            | none => []))) :=
  ⟨by decide, by decide,
   cache_frame_on_failure_paths oracleNone defaultDM dbC4 1 "Xyzzy" (by decide)
     (by decide)⟩

/-- C8: the variant generator produces at most 8 variants, pairwise
distinct, each non-empty and longer than one character, and each drawn
from the five derived forms: the original, its cleaned form, its
diacritic-free form, its corrected form, and the cleaned form of the
corrected string. -/
theorem variants_bounded_distinct_derived (dm : DataManager) (city : String) :
    (generate_variants dm city).length ≤ 8 ∧
    (generate_variants dm city).Nodup ∧
    (∀ v ∈ generate_variants dm city, ¬ v = "" ∧ 1 < v.length) ∧
    (∀ v ∈ generate_variants dm city,
      v ∈ [city, clean_city_name dm city, remove_diacritics dm city,
           get_corrected_city dm city,
           clean_city_name dm (get_corrected_city dm city)]) := by
  refine ⟨?_, ?_, ?_, ?_⟩
  · exact List.length_take_le 8 _
  · exact ((List.nodup_dedup _).filter _).sublist (List.take_sublist 8 _)
  · intro v hv
    have hf := List.mem_of_mem_take hv
    have := (List.mem_filter.mp hf).2
    simpa using of_decide_eq_true this
  · intro v hv
    have hf := List.mem_of_mem_take hv
    have hd := (List.mem_filter.mp hf).1
    exact List.mem_dedup.mp hd

theorem variants_bounded_distinct_derived_witness :
    (generate_variants defaultDM "Warszewa").length ≤ 8 ∧
    (generate_variants defaultDM "Warszewa").Nodup ∧
    (¬ "warszawa" = "" ∧ 1 < ("warszawa" : String).length) ∧
    "warszawa" ∈ ["Warszewa", clean_city_name defaultDM "Warszewa",
      remove_diacritics defaultDM "Warszewa",
      get_corrected_city defaultDM "Warszewa",
      clean_city_name defaultDM (get_corrected_city defaultDM "Warszewa")] :=
  ⟨(variants_bounded_distinct_derived defaultDM "Warszewa").1,
   (variants_bounded_distinct_derived defaultDM "Warszewa").2.1,
   (variants_bounded_distinct_derived defaultDM "Warszewa").2.2.1 "warszawa" (by decide),
   (variants_bounded_distinct_derived defaultDM "Warszewa").2.2.2 "warszawa" (by decide)⟩

/-! ## Lemmas relating the strategy chain to its specification form -/

theorem spec_cons_eq (oracle : Oracle) (name tag : String)
    (rest : List (String × String)) :
    strategyChainSpec oracle ((name, tag) :: rest)
      = match tryQueries oracle [name ++ ", Poland", name ++ ", PL"] with
        | (some (la, lo, _), cs) => (some (la, lo, tag), cs)
        | (none, cs) =>
          ((strategyChainSpec oracle rest).1, cs ++ (strategyChainSpec oracle rest).2) :=
  rfl

theorem spec_cons_found (oracle : Oracle) (name tag : String)
    (rest : List (String × String)) (la lo : ℚ) (s : String) (cs : List String)
    (h : tryQueries oracle [name ++ ", Poland", name ++ ", PL"] = (some (la, lo, s), cs)) :
    strategyChainSpec oracle ((name, tag) :: rest) = (some (la, lo, tag), cs) := by
  rw [spec_cons_eq, h]

theorem spec_cons_miss (oracle : Oracle) (name tag : String)
    (rest : List (String × String)) (cs : List String)
    (h : tryQueries oracle [name ++ ", Poland", name ++ ", PL"] = (none, cs)) :
    strategyChainSpec oracle ((name, tag) :: rest)
      = ((strategyChainSpec oracle rest).1, cs ++ (strategyChainSpec oracle rest).2) := by
  rw [spec_cons_eq, h]

theorem retag_tryQueries_nominatim (oracle : Oracle) (qs : List String) :
    retag "nominatim" (tryQueries oracle qs) = tryQueries oracle qs := by
  induction qs with
  | nil => rfl
  | cons q rest ih =>
    unfold tryQueries
    cases oracle q with
    | none =>
      simp only []
      unfold retag at ih ⊢
      cases h : tryQueries oracle rest with
      | mk r cs => cases r <;> simp_all
    | some c =>
      cases c with
      | mk la lo =>
        by_cases hin : is_in_poland la lo = true
        · simp [hin, retag]
        · simp only [hin, Bool.false_eq_true, if_false]
          unfold retag at ih ⊢
          cases h : tryQueries oracle rest with
          | mk r cs => cases r <;> simp_all

theorem spec_single (oracle : Oracle) (name tag : String) :
    strategyChainSpec oracle [(name, tag)]
      = retag tag (geocode_basic oracle name) := by
  cases h : tryQueries oracle [name ++ ", Poland", name ++ ", PL"] with
  | mk r cs =>
    cases r with
    | none =>
      rw [spec_cons_miss oracle name tag [] cs h]
      unfold geocode_basic
      rw [h]
      simp [retag, strategyChainSpec]
    | some v =>
      rcases v with ⟨la, lo, s⟩
      rw [spec_cons_found oracle name tag [] la lo s cs h]
      unfold geocode_basic
      rw [h]
      simp [retag]

theorem spec_single_nominatim (oracle : Oracle) (name : String) :
    strategyChainSpec oracle [(name, "nominatim")] = geocode_basic oracle name := by
  rw [spec_single]
  unfold geocode_basic
  exact retag_tryQueries_nominatim oracle _

theorem spec_append (oracle : Oracle) (l1 l2 : List (String × String)) :
    strategyChainSpec oracle (l1 ++ l2)
      = orElseCalls (strategyChainSpec oracle l1)
          (fun _ => strategyChainSpec oracle l2) := by
  induction l1 with
  | nil =>
    unfold orElseCalls strategyChainSpec
    simp
  | cons a t ih =>
    rcases a with ⟨name, tag⟩
    cases h : tryQueries oracle [name ++ ", Poland", name ++ ", PL"] with
    | mk r cs =>
      cases r with
      | some v =>
        rcases v with ⟨la, lo, s⟩
        rw [List.cons_append, spec_cons_found oracle name tag _ la lo s cs h,
          spec_cons_found oracle name tag _ la lo s cs h]
        rfl
      | none =>
        rw [List.cons_append, spec_cons_miss oracle name tag _ cs h,
          spec_cons_miss oracle name tag _ cs h, ih]
        unfold orElseCalls
        cases h1 : strategyChainSpec oracle t with
        | mk r1 cs1 => cases r1 <;> simp_all [List.append_assoc]

theorem orElseCalls_assoc (a : Option (ℚ × ℚ × String) × List String)
    (b c : Unit → Option (ℚ × ℚ × String) × List String) :
    orElseCalls (orElseCalls a b) c
      = orElseCalls a (fun _ => orElseCalls (b ()) c) := by
  unfold orElseCalls
  cases a with
  | mk r0 cs0 =>
    cases r0 with
    | some v => rfl
    | none =>
      cases h : b () with
      | mk r1 cs1 =>
        cases r1 with
        | some v => simp
        | none =>
          cases h2 : c () with
          | mk r2 cs2 => simp [List.append_assoc]

theorem tryVariants_cons_eq (oracle : Oracle) (city v : String)
    (t : List String) :
    tryVariants oracle city (v :: t)
      = if v = city then tryVariants oracle city t
        else
          match geocode_basic oracle v with
          | (some (la, lo, _), cs) => (some (la, lo, "fuzzy"), cs)
          | (none, cs) =>
            ((tryVariants oracle city t).1, cs ++ (tryVariants oracle city t).2) :=
  rfl

theorem tryVariants_sk (oracle : Oracle) (city : String) (t : List String) :
    tryVariants oracle city (city :: t) = tryVariants oracle city t := by
  rw [tryVariants_cons_eq]
  simp

theorem tryVariants_ne (oracle : Oracle) (city v : String) (t : List String)
    (hv : ¬ v = city) :
    tryVariants oracle city (v :: t)
      = match geocode_basic oracle v with
        | (some (la, lo, _), cs) => (some (la, lo, "fuzzy"), cs)
        | (none, cs) =>
          ((tryVariants oracle city t).1, cs ++ (tryVariants oracle city t).2) := by
  rw [tryVariants_cons_eq]
  simp [hv]

theorem tryVariants_eq_spec (oracle : Oracle) (city : String) (l : List String) :
    tryVariants oracle city l
      = strategyChainSpec oracle
          ((l.filter (fun v => ¬ v = city)).map (fun v => (v, "fuzzy"))) := by
  induction l with
  | nil => rfl
  | cons v t ih =>
    by_cases hv : v = city
    · subst hv
      rw [tryVariants_sk, ih]
      congr 1
      simp [List.filter_cons]
    · rw [tryVariants_ne oracle city v t hv]
      have e2 : (v :: t).filter (fun v => ¬ v = city)
          = v :: t.filter (fun v => ¬ v = city) := by
        simp [List.filter_cons, hv]
      rw [e2, List.map_cons]
      cases h : geocode_basic oracle v with
      | mk r cs =>
        have h' : tryQueries oracle [v ++ ", Poland", v ++ ", PL"] = (r, cs) := h
        cases r with
        | some w =>
          rcases w with ⟨la, lo, s⟩
          rw [spec_cons_found oracle v "fuzzy" _ la lo s cs h']
        | none =>
          rw [spec_cons_miss oracle v "fuzzy" _ cs h', ← ih]

/-- C1 (counterexample to the claim as stated): when the original city
string itself resolves, the result is tagged "nominatim" — the tag
`_geocode_basic` attaches and strategy 1 passes through unchanged — not
"direct" as the claim requires. -/
theorem direct_success_tagged_nominatim :
    try_geocoding_strategies oracleW defaultDM "Warszawa"
      = (some (52, 21, "nominatim"), ["Warszawa, Poland"]) ∧
    ¬ ("nominatim" = "direct") :=
  ⟨by decide, by decide⟩

/-- C1 (amended): the strategy chain equals its specification form: it
attempts, in order, the original string (a success keeps the provider
tag "nominatim", not "direct"), the cleaned string when it differs from
the original (tag "cleaned"), the corrected string when it differs (tag
"corrected"), then every generated variant other than the original (tag
"fuzzy"); each attempted name issues the loosely-qualified ", Poland"
query and then, only if needed, the strictly-qualified ", PL" query —
at most two queries per name — accepting the first in-region candidate;
the chain reports `none` (failure, not an error) only when every attempt
is exhausted. -/
theorem strategy_chain_refines_spec (oracle : Oracle) (dm : DataManager)
    (city name : String) :
    try_geocoding_strategies oracle dm city
      = strategyChainSpec oracle (attemptListSpec dm city) ∧
    ((geocode_basic oracle name).2 = [name ++ ", Poland"] ∨
     (geocode_basic oracle name).2 = [name ++ ", Poland", name ++ ", PL"]) := by
  constructor
  · have hA : (if clean_city_name dm city ≠ city then
        retag "cleaned" (geocode_basic oracle (clean_city_name dm city))
      else (none, []))
        = strategyChainSpec oracle
            (if clean_city_name dm city ≠ city then
              [(clean_city_name dm city, "cleaned")] else []) := by
      by_cases h : clean_city_name dm city = city
      · simp [h, strategyChainSpec]
      · simp only [h, ne_eq, not_false_iff, if_true]
        exact (spec_single oracle _ "cleaned").symm
    have hB : (if get_corrected_city dm city ≠ city then
        retag "corrected" (geocode_basic oracle (get_corrected_city dm city))
      else (none, []))
        = strategyChainSpec oracle
            (if get_corrected_city dm city ≠ city then
              [(get_corrected_city dm city, "corrected")] else []) := by
      by_cases h : get_corrected_city dm city = city
      · simp [h, strategyChainSpec]
      · simp only [h, ne_eq, not_false_iff, if_true]
        exact (spec_single oracle _ "corrected").symm
    have hC := tryVariants_eq_spec oracle city (generate_variants dm city)
    apply Eq.symm
    calc strategyChainSpec oracle (attemptListSpec dm city)
        = orElseCalls (strategyChainSpec oracle [(city, "nominatim")])
            (fun _ => strategyChainSpec oracle
              ((if clean_city_name dm city ≠ city then
                  [(clean_city_name dm city, "cleaned")] else []) ++
               (if get_corrected_city dm city ≠ city then
                  [(get_corrected_city dm city, "corrected")] else []) ++
               ((generate_variants dm city).filter (fun v => ¬ v = city)).map
                 (fun v => (v, "fuzzy")))) :=
          spec_append oracle [(city, "nominatim")] _
      _ = orElseCalls (strategyChainSpec oracle [(city, "nominatim")])
            (fun _ => orElseCalls
              (strategyChainSpec oracle
                (if clean_city_name dm city ≠ city then
                  [(clean_city_name dm city, "cleaned")] else []))
              (fun _ => orElseCalls
                (strategyChainSpec oracle
                  (if get_corrected_city dm city ≠ city then
                    [(get_corrected_city dm city, "corrected")] else []))
                (fun _ => strategyChainSpec oracle
                  (((generate_variants dm city).filter (fun v => ¬ v = city)).map
                    (fun v => (v, "fuzzy")))))) := by
          rw [spec_append, spec_append, orElseCalls_assoc]
      _ = try_geocoding_strategies oracle dm city := by
          rw [spec_single_nominatim, ← hA, ← hB, ← hC]
          rfl
  · have h2 : ∀ q : String, (tryQueries oracle [q]).2 = [q] := by
      intro q
      unfold tryQueries
      cases h : oracle q with
      | none => simp [tryQueries]
      | some c =>
        cases c with
        | mk la lo =>
          by_cases hin : is_in_poland la lo = true
          · simp [hin]
          · simp [hin, tryQueries]
    unfold geocode_basic tryQueries
    cases h : oracle (name ++ ", Poland") with
    | none => right; simp [h2]
    | some c =>
      cases c with
      | mk la lo =>
        by_cases hin : is_in_poland la lo = true
        · left; simp [hin]
        · right; simp [hin, h2]

/-! ## Character-level lemmas for the normalization key (claim C6) -/

/-- The alphabet of normalized keys: lowercase ASCII letters, digits,
underscore and hyphen. -/
def normCharList : List Char := lcList ++ digitList ++ ['_', '-']

theorem normChar_facts : ∀ c ∈ normCharList,
    toLowerPL c = c ∧ asciiFoldChar c = [c] ∧ pyIsSpace c = false ∧
    keepChar c = true ∧ ¬ c = ' ' := by decide

theorem map_id_of_mem {α : Type} {l : List α} {f : α → α}
    (h : ∀ c ∈ l, f c = c) : l.map f = l := by
  induction l with
  | nil => rfl
  | cons c t ih =>
    rw [List.map_cons, h c (by simp), ih (fun x hx => h x (by simp [hx]))]

theorem flatMap_id_of_mem {l : List Char} {f : Char → List Char}
    (h : ∀ c ∈ l, f c = [c]) : l.flatMap f = l := by
  induction l with
  | nil => rfl
  | cons c t ih =>
    rw [List.flatMap_cons, h c (by simp), ih (fun x hx => h x (by simp [hx]))]
    rfl

theorem dropWhile_eq_self_of {l : List Char} {p : Char → Bool}
    (h : ∀ c ∈ l, p c = false) : l.dropWhile p = l := by
  cases l with
  | nil => rfl
  | cons c t => rw [List.dropWhile_cons, h c (by simp)]; rfl

theorem mem_of_mem_dropWhile {l : List Char} {p : Char → Bool} {c : Char}
    (h : c ∈ l.dropWhile p) : c ∈ l := by
  induction l with
  | nil => simp at h
  | cons a t ih =>
    rw [List.dropWhile_cons] at h
    by_cases ha : p a = true
    · simp only [ha, if_true] at h
      exact List.mem_cons_of_mem a (ih h)
    · simp only [ha] at h
      simpa using h

theorem mem_of_mem_pyStrip {l : List Char} {c : Char} (h : c ∈ pyStrip l) :
    c ∈ l := by
  unfold pyStrip at h
  rw [List.mem_reverse] at h
  have h1 := mem_of_mem_dropWhile h
  rw [List.mem_reverse] at h1
  exact mem_of_mem_dropWhile h1

theorem pyStrip_eq_self {l : List Char} (h : ∀ c ∈ l, pyIsSpace c = false) :
    pyStrip l = l := by
  unfold pyStrip
  rw [dropWhile_eq_self_of h,
    dropWhile_eq_self_of (fun c hc => h c (List.mem_reverse.mp hc)),
    List.reverse_reverse]

theorem collapseWS_cons_eq (c : Char) (rest : List Char) :
    collapseWS (c :: rest)
      = if pyIsSpace c then
          match rest with
          | [] => [' ']
          | d :: _ => if pyIsSpace d then collapseWS rest else ' ' :: collapseWS rest
        else c :: collapseWS rest := rfl

theorem mem_collapseWS {l : List Char} {c : Char} (h : c ∈ collapseWS l) :
    c = ' ' ∨ (c ∈ l ∧ pyIsSpace c = false) := by
  induction l with
  | nil => exact absurd h (List.not_mem_nil c)
  | cons a t ih =>
    rw [collapseWS_cons_eq] at h
    by_cases ha : pyIsSpace a = true
    · simp only [ha, if_true] at h
      cases t with
      | nil =>
        left
        exact List.mem_singleton.mp h
      | cons d t' =>
        by_cases hd : pyIsSpace d = true
        · simp only [hd, if_true] at h
          rcases ih h with h' | ⟨hmem, hsp⟩
          · exact Or.inl h'
          · exact Or.inr ⟨List.mem_cons_of_mem a hmem, hsp⟩
        · simp only [hd, Bool.false_eq_true, if_false] at h
          rcases List.mem_cons.mp h with rfl | h'
          · exact Or.inl rfl
          · rcases ih h' with h'' | ⟨hmem, hsp⟩
            · exact Or.inl h''
            · exact Or.inr ⟨List.mem_cons_of_mem a hmem, hsp⟩
    · simp only [ha] at h
      rcases List.mem_cons.mp h with rfl | h'
      · exact Or.inr ⟨List.mem_cons_self _ _, by simpa using ha⟩
      · rcases ih h' with h'' | ⟨hmem, hsp⟩
        · exact Or.inl h''
        · exact Or.inr ⟨List.mem_cons_of_mem a hmem, hsp⟩

theorem collapseWS_eq_self {l : List Char}
    (h : ∀ c ∈ l, pyIsSpace c = false) : collapseWS l = l := by
  induction l with
  | nil => rfl
  | cons a t ih =>
    rw [collapseWS_cons_eq, h a (by simp),
      ih (fun x hx => h x (by simp [hx]))]
    rfl

theorem mem_of_isPfx : ∀ {p s : List Char}, p.isPrefixOf s = true →
    ∀ c ∈ p, c ∈ s := by
  intro p
  induction p with
  | nil => intro s _ c hc; simp at hc
  | cons a p' ih =>
    intro s hps c hc
    cases s with
    | nil => simp [List.isPrefixOf] at hps
    | cons b s' =>
      rw [List.isPrefixOf_cons₂] at hps
      have hab : a = b := by
        have := (Bool.and_eq_true _ _).mp hps
        exact eq_of_beq this.1
      have hrest : p'.isPrefixOf s' = true :=
        ((Bool.and_eq_true _ _).mp hps).2
      rcases List.mem_cons.mp hc with rfl | hc'
      · rw [hab]; exact List.mem_cons_self _ _
      · exact List.mem_cons_of_mem b (ih hrest c hc')

theorem mem_of_mem_stripDbPfx {s : List Char} {c : Char}
    (h : c ∈ stripDbPfx s) : c ∈ s := by
  unfold stripDbPfx at h
  cases hf : dbPfxs.find? (fun p => p.isPrefixOf s) with
  | none => rw [hf] at h; exact h
  | some p =>
    rw [hf] at h
    have h1 := mem_of_mem_pyStrip h
    exact (List.drop_sublist p.length s).mem h1

theorem stripDbPfx_eq_self {s : List Char}
    (h : ∀ c ∈ s, ¬ c = ' ') : stripDbPfx s = s := by
  have hnone : dbPfxs.find? (fun p => p.isPrefixOf s) = none := by
    rw [List.find?_eq_none]
    intro p hp hps
    have hsp : (' ' : Char) ∈ p := by
      have : ∀ q ∈ dbPfxs, (' ' : Char) ∈ q := by decide
      exact this p hp
    exact h ' ' (mem_of_isPfx hps ' ' hsp) rfl
  unfold stripDbPfx
  rw [hnone]

theorem toLowerPL_not_upper (c : Char) : toLowerPL c ∉ ucList := by
  unfold toLowerPL
  cases hf : lowerPairs.find? (fun kv => kv.1 = c) with
  | some kv =>
    have hkv : kv ∈ lowerPairs := List.mem_of_find?_eq_some hf
    have hval : ∀ kv ∈ lowerPairs, kv.2 ∉ ucList := by decide
    exact hval kv hkv
  | none =>
    intro hc
    have hcov : ∀ u ∈ ucList, (lowerPairs.find? (fun kv => kv.1 = u)).isSome = true := by
      decide
    have := hcov c hc
    rw [hf] at this
    simp at this

theorem mem_asciiFoldChar {b c : Char} (h : b ∈ asciiFoldChar c) :
    b = c ∨ b ∈ foldPairs.map (fun kv => kv.2) := by
  unfold asciiFoldChar at h
  by_cases hc : c.toNat < 128
  · rw [if_pos hc] at h
    exact Or.inl (List.mem_singleton.mp h)
  · rw [if_neg hc] at h
    cases hf : foldPairs.find? (fun kv => kv.1 = c) with
    | none => rw [hf] at h; simp at h
    | some kv =>
      rw [hf] at h
      right
      rw [List.mem_singleton.mp h]
      exact List.mem_map_of_mem _ (List.mem_of_find?_eq_some hf)

/-- Range of the normalizer: every character of a normalized key is a
lowercase ASCII letter, a digit, an underscore or a hyphen. -/
theorem normalizeL_mem (l : List Char) :
    ∀ c ∈ normalizeL l, c ∈ normCharList := by
  intro c hc
  unfold normalizeL at hc
  rcases List.mem_map.mp hc with ⟨b, hb, rfl⟩
  rcases mem_collapseWS hb with rfl | ⟨hb4, hbs⟩
  · show spaceToUnderscore ' ' ∈ normCharList
    decide
  · have hbne : ¬ b = ' ' := by
      intro hb'
      rw [hb'] at hbs
      simp [pyIsSpace, spaceChars] at hbs
    have hstu : spaceToUnderscore b = b := by
      unfold spaceToUnderscore
      rw [if_neg hbne]
    rw [hstu]
    have hb3 := List.mem_filter.mp hb4
    have hkeep : keepChar b = true := hb3.2
    rcases List.mem_flatMap.mp hb3.1 with ⟨a, ha2, hbf⟩
    rcases mem_asciiFoldChar hbf with rfl | hval
    · -- b came through unchanged from the lower-cased, stripped input
      have ha1 := mem_of_mem_stripDbPfx ha2
      rcases List.mem_map.mp ha1 with ⟨x, _, rfl⟩
      have hup := toLowerPL_not_upper x
      have hword : isWordChar (toLowerPL x) = true ∨ toLowerPL x = '-' := by
        unfold keepChar at hkeep
        rcases Bool.or_eq_true_iff.mp hkeep with h1 | h2
        · rcases Bool.or_eq_true_iff.mp h1 with h3 | h4
          · exact Or.inl h3
          · rw [h4] at hbs; simp at hbs
        · exact Or.inr (by simpa using h2)
      unfold normCharList
      rcases hword with h1 | h2
      · unfold isWordChar at h1
        rcases of_decide_eq_true h1 with h | h | h | h
        · simp [h]
        · exact absurd h hup
        · simp [h]
        · simp [h]
      · simp [h2]
    · have hvals : ∀ x ∈ foldPairs.map (fun kv => kv.2), x ∈ normCharList := by
        decide
      exact hvals _ hval

/-- The normalizer is the identity on strings over its own output
alphabet. -/
theorem normalizeL_eq_self {l : List Char}
    (h : ∀ c ∈ l, c ∈ normCharList) : normalizeL l = l := by
  have hlow : ∀ c ∈ l, toLowerPL c = c := fun c hc => (normChar_facts c (h c hc)).1
  have hfold : ∀ c ∈ l, asciiFoldChar c = [c] := fun c hc => (normChar_facts c (h c hc)).2.1
  have hsp : ∀ c ∈ l, pyIsSpace c = false := fun c hc => (normChar_facts c (h c hc)).2.2.1
  have hkeep : ∀ c ∈ l, keepChar c = true := fun c hc => (normChar_facts c (h c hc)).2.2.2.1
  have hneq : ∀ c ∈ l, ¬ c = ' ' := fun c hc => (normChar_facts c (h c hc)).2.2.2.2
  unfold normalizeL
  rw [pyStrip_eq_self hsp, map_id_of_mem hlow, stripDbPfx_eq_self hneq,
    flatMap_id_of_mem hfold, List.filter_eq_self.mpr hkeep,
    collapseWS_eq_self hsp,
    map_id_of_mem (fun c hc => by unfold spaceToUnderscore; rw [if_neg (hneq c hc)])]

/-- C6: the cache key derived by `_normalize_city` is a pure function of
the city string (same input, same key — it reads no other state), and it
is idempotent: normalizing an already-normalized key returns it
unchanged. -/
theorem normalization_deterministic_idempotent (city : String) :
    normalize_city city = normalize_city city ∧
    normalize_city (normalize_city city) = normalize_city city := by
  refine ⟨rfl, ?_⟩
  have e : ∀ t : String, normalize_city t
      = if t = "" then "" else ⟨normalizeL t.toList⟩ := fun t => rfl
  by_cases h0 : city = ""
  · rw [h0]
    rfl
  · by_cases h1 : normalize_city city = ""
    · rw [h1]
      rfl
    · rw [e (normalize_city city), if_neg h1, e city, if_neg h0]
      have hm : ∀ c ∈ (String.mk (normalizeL city.toList)).toList, c ∈ normCharList :=
        normalizeL_mem city.toList
      rw [show (String.mk (normalizeL city.toList)).toList = normalizeL city.toList from rfl]
      rw [normalizeL_eq_self (normalizeL_mem city.toList)]

end PropMon
